import Mathlib

set_option maxRecDepth 10000

namespace Zenoh

/-! # Key-expression matching (commons/zenoh-protocol-core/src/key_expr.rs)

A Rust string slice (`&str`) is modelled as the list of Unicode scalar values
of the string, a faithful bijection for every valid `&str`.  The source slices
strings at byte offsets (`&s[1..]`, `&s2[0..1]`); such a slice panics exactly
when the offset is not a character boundary, i.e. when the relevant first
character occupies more than one byte.  Those panics are modelled explicitly
by the `Res.crash` result.  The mutually recursive matchers are written with a
structural fuel parameter; fuel exhaustion (`Res.out`) never occurs once the
fuel exceeds the combined length of the two inputs, because every recursive
call strictly shrinks that combined length. -/

abbrev Str := List Char

/-- True when the character is encoded on a single byte in UTF-8, so that byte
offset 1 of a string beginning with it is a character boundary. -/
def ascii (c : Char) : Bool := c.toNat < 128

/-- Result of one matcher call: `ok b` is a normal return of `b`; `crash` is a
Rust panic raised by slicing a string at a byte offset that is not a character
boundary; `out` marks fuel exhaustion. -/
inductive Res where
  | ok (b : Bool)
  | crash
  | out
deriving DecidableEq

/-- fn cend(s) = s.is_empty() || s.starts_with('/') -/
def cend (s : Str) : Bool := s.isEmpty || s.head? == some '/'

/-- fn cwild(s) = s.starts_with('*') -/
def cwild (s : Str) : Bool := s.head? == some '*'

/-- fn cnext(s) = &s[1..].  The slice panics (`none`) when `s` is empty or its
first character is multi-byte. -/
def cnext (s : Str) : Option Str :=
  match s with
  | [] => none
  | c :: t => if ascii c then some t else none

/-- fn cequal(s1, s2) = s1.starts_with(&s2[0..1]).  The slice `&s2[0..1]`
panics (`none`) when `s2` is empty or its first character is multi-byte;
otherwise the call compares the first byte of `s1` against that character. -/
def cequal (s1 s2 : Str) : Option Bool :=
  match s2 with
  | [] => none
  | c :: _ => if ascii c then some (s1.head? == some c) else none

/-- Resource level, fn end(s) = s.is_empty() (`end` is a Lean keyword). -/
def rend (s : Str) : Bool := s.isEmpty

/-- Resource level, fn wild(s) = s.starts_with("**/") || s == "**" -/
def wild (s : Str) : Bool := s.take 3 == ['*', '*', '/'] || s == ['*', '*']

/-- Resource level, fn next(s): the suffix after the first '/', or "" when
there is none.  '/' is a one-byte character, so this slicing never panics. -/
def next (s : Str) : Str := (s.dropWhile (fun c => !(c == '/'))).tail

/-- The backtracking step of DEFINE_INTERSECT,
`if name(..) { return true } else { return name(..) }`: take the first branch
when it returns true, fall back to the second when it returns false, and
propagate a panic (or fuel exhaustion) of the first.  The fallback is an
already-computed value; selecting it lazily or eagerly yields the same result,
because it is only inspected when the first branch returned false, exactly as
in the source. -/
def orBack (r fb : Res) : Res :=
  match r with
  | .ok true => .ok true
  | .ok false => fb
  | e => e

/-- The element gate `if elem(c1, c2) { return name(..) } return false` shared
by both recursion templates: run the continuation when the element predicate
holds, return false when it does not, propagate a panic of the predicate. -/
def gate (r k : Res) : Res :=
  match r with
  | .ok true => k
  | .ok false => .ok false
  | e => e

/-- `cequal` as a matcher result: a slicing panic of `cequal` becomes `crash`,
a normal boolean becomes `ok`. -/
def cequalRes (c1 c2 : Str) : Res :=
  match cequal c1 c2 with
  | none => .crash
  | some b => .ok b

/-- DEFINE_INTERSECT!(sub_chunk_intersect, cend, cwild, cnext, cequal),
with the Rust evaluation order of the primitive calls preserved so that
panics propagate exactly as in the source. -/
def sub_chunk_intersect : Nat → Str → Str → Res
  | 0, _, _ => .out
  | fuel+1, c1, c2 =>
    if cend c1 && cend c2 then .ok true
    else if cwild c1 && cend c2 then
      match cnext c1 with
      | none => .crash
      | some t1 => sub_chunk_intersect fuel t1 c2
    else if cend c1 && cwild c2 then
      match cnext c2 with
      | none => .crash
      | some t2 => sub_chunk_intersect fuel c1 t2
    else if cwild c1 then
      match cnext c1 with
      | none => .crash
      | some t1 =>
        if cend t1 then .ok true
        else
          orBack (sub_chunk_intersect fuel t1 c2)
            (match cnext c2 with
             | none => .crash
             | some t2 => sub_chunk_intersect fuel c1 t2)
    else if cwild c2 then
      match cnext c2 with
      | none => .crash
      | some t2 =>
        if cend t2 then .ok true
        else
          match cnext c1 with
          | none => .crash
          | some t1 =>
            orBack (sub_chunk_intersect fuel t1 c2) (sub_chunk_intersect fuel c1 t2)
    else if cend c1 || cend c2 then .ok false
    else
      gate (cequalRes c1 c2)
        (match cnext c1, cnext c2 with
         | some t1, some t2 => sub_chunk_intersect fuel t1 t2
         | _, _ => .crash)

/-- fn chunk_intersect: rejects an (ended, non-ended) pair, then delegates to
sub_chunk_intersect. -/
def chunk_intersect (fuel : Nat) (c1 c2 : Str) : Res :=
  if (cend c1 && !cend c2) || (!cend c1 && cend c2) then .ok false
  else sub_chunk_intersect fuel c1 c2

/-- DEFINE_INCLUDE!(chunk_include, cend, cwild, cnext, cequal). -/
def chunk_include : Nat → Str → Str → Res
  | 0, _, _ => .out
  | fuel+1, sup, sub =>
    if cend sup && cend sub then .ok true
    else if cwild sup && cend sub then
      match cnext sup with
      | none => .crash
      | some t1 => chunk_include fuel t1 sub
    else if cwild sup then
      match cnext sup with
      | none => .crash
      | some t1 =>
        if cend t1 then .ok true
        else
          orBack (chunk_include fuel t1 sub)
            (match cnext sub with
             | none => .crash
             | some t2 => chunk_include fuel sup t2)
    else if cwild sub then .ok false
    else if cend sup || cend sub then .ok false
    else
      gate (cequalRes sup sub)
        (match cnext sup, cnext sub with
         | some t1, some t2 => chunk_include fuel t1 t2
         | _, _ => .crash)

/-- DEFINE_INTERSECT!(res_intersect, end, wild, next, chunk_intersect).
`next` is total at resource level; the inner chunk matcher receives fuel that
is always sufficient for its own recursion. -/
def res_intersect : Nat → Str → Str → Res
  | 0, _, _ => .out
  | fuel+1, c1, c2 =>
    if rend c1 && rend c2 then .ok true
    else if wild c1 && rend c2 then res_intersect fuel (next c1) c2
    else if rend c1 && wild c2 then res_intersect fuel c1 (next c2)
    else if wild c1 then
      if rend (next c1) then .ok true
      else
        orBack (res_intersect fuel (next c1) c2) (res_intersect fuel c1 (next c2))
    else if wild c2 then
      if rend (next c2) then .ok true
      else
        orBack (res_intersect fuel (next c1) c2) (res_intersect fuel c1 (next c2))
    else if rend c1 || rend c2 then .ok false
    else
      gate (chunk_intersect (c1.length + c2.length + 1) c1 c2)
        (res_intersect fuel (next c1) (next c2))

/-- DEFINE_INCLUDE!(res_include, end, wild, next, chunk_include). -/
def res_include : Nat → Str → Str → Res
  | 0, _, _ => .out
  | fuel+1, sup, sub =>
    if rend sup && rend sub then .ok true
    else if wild sup && rend sub then res_include fuel (next sup) sub
    else if wild sup then
      if rend (next sup) then .ok true
      else
        orBack (res_include fuel (next sup) sub) (res_include fuel sup (next sub))
    else if wild sub then .ok false
    else if rend sup || rend sub then .ok false
    else
      gate (chunk_include (sup.length + sub.length + 1) sup sub)
        (res_include fuel (next sup) (next sub))

/-- pub fn intersect(s1, s2) = res_intersect(s1, s2), run with fuel that a
lemma below shows can never be exhausted. -/
def intersect (s1 s2 : Str) : Res := res_intersect (s1.length + s2.length + 1) s1 s2

/-- pub fn include(this, sub) = res_include(this, sub); `include` is a Lean
keyword, hence the primed name. -/
def include' (sup sub : Str) : Res := res_include (sup.length + sub.length + 1) sup sub

/-- s.starts_with(ADMIN_PREFIX) with ADMIN_PREFIX = "/@/". -/
def starts_admin (s : Str) : Bool := s.take 3 == ['/', '@', '/']

/-- pub fn matches(s1, s2): intersect when both or neither side starts with the
admin prefix, false otherwise (`matches` is a Lean keyword, hence the primed
name). -/
def matches' (s1 s2 : Str) : Res :=
  if starts_admin s1 == starts_admin s2 then intersect s1 s2 else .ok false

/-! # Unicast transport manager (io/zenoh-transport/src/unicast/manager.rs)

The manager owns three independently locked pieces of state: the `incoming`
counter, the `protocols` map and the `transports` map.  Each operation below
models the state transition performed by the corresponding source function
while it holds the relevant lock; maps are modelled as association lists with
distinct keys, so `HashMap::len` is list length and `HashMap::get` is
`List.lookup`. -/

inductive Whatami where
  | router
  | peer
  | client
deriving DecidableEq

/-- TransportConfigUnicast: the parameters `init_transport_unicast` receives
from the establishment protocol. -/
structure TransportConfigUnicast where
  peer : Nat
  whatami : Whatami
  sn_resolution : Nat
  tx_initial_sn : Nat
  is_shm : Bool
  is_qos : Bool
deriving DecidableEq

/-- The stored transport, exposing the configuration fields that
`init_transport_unicast` validates against (`transport.config.*` in the
source). -/
structure TransportUnicastInner where
  zid : Nat
  whatami : Whatami
  sn_resolution : Nat
  initial_sn_tx : Nat
  is_shm : Bool
  is_qos : Bool
deriving DecidableEq

/-- Modelled from the spec: `TransportUnicastInner::make` lives in
unicast/transport.rs, which is not among the provided sources.  Per spec
§4.2.3 it constructs the internal transport from the given
`TransportUnicastConfig`; it is modelled as recording those fields (the
manager back-reference carries no information relevant to the claims). -/
def TransportUnicastInner.make (zid : Nat) (whatami : Whatami)
    (sn_resolution initial_sn_tx : Nat) (is_shm is_qos : Bool) :
    TransportUnicastInner :=
  ⟨zid, whatami, sn_resolution, initial_sn_tx, is_shm, is_qos⟩

abbrev Transports := List (Nat × TransportUnicastInner)

/-- The distinct errors raised by `init_transport_unicast`; each mismatch
error names the offending field, the got value and the expected value. -/
inductive InitError where
  | invalidWhatami (peer : Nat) (got expected : Whatami)
  | invalidSnResolution (peer got expected : Nat)
  | invalidShm (peer : Nat) (got expected : Bool)
  | invalidQos (peer : Nat) (got expected : Bool)
  | maxSessionsReached (max_sessions peer : Nat)
deriving DecidableEq

/-- `init_transport_unicast`, modelled as the transition on the transports map
performed under its lock, paired with the returned result.  The early-return
error paths leave the map untouched, exactly as the source does. -/
def init_transport_unicast (max_sessions : Nat) (transports : Transports)
    (config : TransportConfigUnicast) :
    Except InitError TransportUnicastInner × Transports :=
  match List.lookup config.peer transports with
  | some transport =>
    if transport.whatami ≠ config.whatami then
      (.error (.invalidWhatami config.peer config.whatami transport.whatami),
        transports)
    else if transport.sn_resolution ≠ config.sn_resolution then
      (.error (.invalidSnResolution config.peer config.sn_resolution
        transport.sn_resolution), transports)
    else if transport.is_shm ≠ config.is_shm then
      (.error (.invalidShm config.peer config.is_shm transport.is_shm),
        transports)
    else if transport.is_qos ≠ config.is_qos then
      (.error (.invalidQos config.peer config.is_qos transport.is_qos),
        transports)
    else (.ok transport, transports)
  | none =>
    if transports.length ≥ max_sessions then
      (.error (.maxSessionsReached max_sessions config.peer), transports)
    else
      let a_t := TransportUnicastInner.make config.peer config.whatami
        config.sn_resolution config.tx_initial_sn config.is_shm config.is_qos
      (.ok a_t, (config.peer, a_t) :: transports)

/-- Outcome of the accept-link establishment routine run under the accept
timeout: success, an establishment error, or expiry of the timeout. -/
inductive AcceptOutcome where
  | established
  | establishFailed
  | timedOut
deriving DecidableEq

/-- `handle_new_link_unicast`, modelled as the admission decision taken under
the `incoming` lock: the first component tells whether an accept task was
spawned, the second is the new counter value.  The function has no error
channel: a rejected link is closed silently. -/
def handle_new_link_unicast (accept_pending incoming : Nat) : Bool × Nat :=
  if incoming ≥ accept_pending then (false, incoming)
  else (true, incoming + 1)

/-- The task spawned by `handle_new_link_unicast`: on an establishment error
or a timeout it closes the link (first component), and in every case it then
decrements the `incoming` counter under its lock (second component). -/
def accept_task (incoming : Nat) (o : AcceptOutcome) : Bool × Nat :=
  match o with
  | .established => (false, incoming - 1)
  | .establishFailed => (true, incoming - 1)
  | .timedOut => (true, incoming - 1)

/-- The three pieces of manager state; a link manager is represented by its
protocol name and its current listeners. -/
structure ManagerState where
  incoming : Nat
  protocols : List (String × List String)
  transports : Transports
deriving DecidableEq

/-- Transport close reasons; the manager itself only uses GENERIC. -/
inductive CloseReason where
  | generic
  | expired
  | maxSessions
deriving DecidableEq

/-- Externally visible effects of `close_unicast`: the listeners deleted from
the drained link managers, and the transports closed together with the close
reason passed to them. -/
structure CloseEffects where
  deletedListeners : List String
  closedTransports : List (Nat × CloseReason)
deriving DecidableEq

/-- `close_unicast`: drain the protocols map and delete every listener of
every drained link manager, then drain the transports map and close every
drained transport with reason GENERIC.  The `incoming` counter is not
touched. -/
def close_unicast (s : ManagerState) : ManagerState × CloseEffects :=
  ({ incoming := s.incoming, protocols := [], transports := [] },
   { deletedListeners := (s.protocols.map Prod.snd).flatten,
     closedTransports := s.transports.map (fun kv => (kv.1, CloseReason.generic)) })


/-! ## Basic computation lemmas for the matcher primitives -/

lemma cend_nil : cend [] = true := rfl

lemma cend_cons (c : Char) (t : Str) : cend (c :: t) = (c == '/') := rfl

lemma cwild_nil : cwild [] = false := rfl

lemma cwild_cons (c : Char) (t : Str) : cwild (c :: t) = (c == '*') := rfl

lemma rend_nil : rend [] = true := rfl

lemma rend_cons (c : Char) (t : Str) : rend (c :: t) = false := rfl

lemma wild_nil : wild [] = false := rfl

lemma wild_sstar : wild ['*', '*'] = true := rfl

lemma next_sstar : next ['*', '*'] = [] := rfl

lemma cnext_star (t : Str) : cnext ('*' :: t) = some t := rfl

lemma cend_star (t : Str) : cend ('*' :: t) = false := rfl

lemma cwild_star (t : Str) : cwild ('*' :: t) = true := rfl

lemma cnext_cons_ascii {c : Char} (t : Str) (h : ascii c = true) :
    cnext (c :: t) = some t := by
  simp [cnext, h]

lemma rend_eq_nil {s : Str} (h : rend s = true) : s = [] := by
  cases s with
  | nil => rfl
  | cons c t => simp [rend_cons] at h

lemma wild_ne_nil {s : Str} (h : wild s = true) : s ≠ [] := by
  intro he
  subst he
  simp [wild_nil] at h

lemma wild_rend {s : Str} (h : wild s = true) : rend s = false := by
  cases s with
  | nil => exact absurd rfl (wild_ne_nil h)
  | cons c t => exact rend_cons c t

lemma rend_wild {s : Str} (h : rend s = true) : wild s = false := by
  rw [rend_eq_nil h]
  exact wild_nil

lemma cwild_eq {s : Str} (h : cwild s = true) : ∃ t, s = '*' :: t := by
  cases s with
  | nil => simp [cwild_nil] at h
  | cons c t =>
    rw [cwild_cons] at h
    exact ⟨t, by rw [eq_of_beq h]⟩

lemma cwild_cend {s : Str} (h : cwild s = true) : cend s = false := by
  obtain ⟨t, rfl⟩ := cwild_eq h
  exact cend_star t

lemma cend_cwild {s : Str} (h : cend s = true) : cwild s = false := by
  cases s with
  | nil => exact cwild_nil
  | cons c t =>
    rw [cend_cons] at h
    rw [cwild_cons, eq_of_beq h]
    decide

lemma dropWhile_length_le (p : Char → Bool) (s : Str) :
    (s.dropWhile p).length ≤ s.length := by
  induction s with
  | nil => simp [List.dropWhile]
  | cons c t ih =>
    by_cases hc : p c
    · simp only [List.dropWhile, hc]
      exact Nat.le_succ_of_le ih
    · simp only [List.dropWhile, Bool.not_eq_true] at hc ⊢
      rw [hc]

lemma next_length {s : Str} (h : s ≠ []) : (next s).length < s.length := by
  have hle := dropWhile_length_le (fun c => !(c == '/')) s
  unfold next
  cases hd : s.dropWhile (fun c => !(c == '/')) with
  | nil =>
    simp only [List.tail_nil, List.length_nil]
    exact List.length_pos.mpr h
  | cons a t =>
    rw [hd] at hle
    simp only [List.tail_cons]
    simp only [List.length_cons] at hle
    omega

/-- The `/`-separated chunks of `e` are all `**` (the empty expression
qualifies vacuously): the precise class of expressions that the source makes
intersect with the empty string. -/
def allStarChunks (e : Str) : Bool :=
  if h : e = [] then true
  else wild e && allStarChunks (next e)
termination_by e.length
decreasing_by exact next_length h

lemma cequal_some {a b : Str} {x : Bool} (h : cequal a b = some x) :
    ∃ c t, b = c :: t ∧ ascii c = true ∧ x = (a.head? == some c) := by
  cases b with
  | nil => simp [cequal] at h
  | cons c t =>
    simp only [cequal] at h
    by_cases hc : ascii c = true
    · rw [if_pos hc] at h
      exact ⟨c, t, rfl, hc, (Option.some_inj.mp h).symm⟩
    · rw [if_neg hc] at h
      simp at h

lemma cequal_sym {a b : Str} {x y : Bool}
    (ha : cequal a b = some x) (hb : cequal b a = some y) : x = y := by
  obtain ⟨c, tb, rfl, hc, hx⟩ := cequal_some ha
  obtain ⟨d, ta, rfl, hd, hy⟩ := cequal_some hb
  simp only [List.head?_cons, Option.some.injEq] at hx hy
  subst hx
  subst hy
  show (d == c) = (c == d)
  by_cases hdc : d = c
  · subst hdc
    rfl
  · rw [beq_eq_false_iff_ne.mpr hdc, beq_eq_false_iff_ne.mpr (Ne.symm hdc)]

lemma cequal_some_true {a b : Str} (h : cequal a b = some true) :
    ∃ c ta tb, a = c :: ta ∧ b = c :: tb ∧ ascii c = true := by
  obtain ⟨c, tb, rfl, hc, hx⟩ := cequal_some h
  have hx' : a.head? = some c := by
    have := beq_iff_eq.mp hx.symm
    exact this
  cases a with
  | nil => simp at hx'
  | cons d ta =>
    simp only [List.head?_cons, Option.some.injEq] at hx'
    subst hx'
    exact ⟨d, ta, tb, rfl, rfl, hc⟩

/-! ## Destructors for the two combinators -/

lemma bool_false_or_true (b : Bool) : b = false ∨ b = true := by
  cases b
  · exact Or.inl rfl
  · exact Or.inr rfl

lemma orBack_ok {r fb : Res} {x : Bool} (h : orBack r fb = .ok x) :
    (r = .ok true ∧ x = true) ∨ (r = .ok false ∧ fb = .ok x) := by
  cases r with
  | ok b =>
    cases b with
    | true => exact Or.inl ⟨rfl, by simpa [orBack] using h.symm⟩
    | false => exact Or.inr ⟨rfl, by simpa [orBack] using h⟩
  | crash => simp [orBack] at h
  | out => simp [orBack] at h

lemma gate_ok {r k : Res} {x : Bool} (h : gate r k = .ok x) :
    (r = .ok true ∧ k = .ok x) ∨ (r = .ok false ∧ x = false) := by
  cases r with
  | ok b =>
    cases b with
    | true => exact Or.inl ⟨rfl, by simpa [gate] using h⟩
    | false => exact Or.inr ⟨rfl, by simpa [gate] using h.symm⟩
  | crash => simp [gate] at h
  | out => simp [gate] at h

/-- Two backtracking matches agree whenever each primary branch agrees with
the opposite fallback; this is the shape shared by every symmetric pair of
wildcard branches of the intersect recursion. -/
lemma orBack_sym {P fb1 Q fb2 : Res} {x y : Bool}
    (h1 : orBack P fb1 = .ok x) (h2 : orBack Q fb2 = .ok y)
    (hPfb2 : ∀ u v, P = .ok u → fb2 = .ok v → u = v)
    (hfb1Q : ∀ u v, fb1 = .ok u → Q = .ok v → u = v) : x = y := by
  rcases orBack_ok h1 with ⟨hP, rfl⟩ | ⟨hP, hfb1⟩
  · rcases orBack_ok h2 with ⟨_, rfl⟩ | ⟨_, hfb2⟩
    · rfl
    · exact hPfb2 true y hP hfb2
  · rcases orBack_ok h2 with ⟨hQ, rfl⟩ | ⟨hQ, hfb2⟩
    · exact hfb1Q x true hfb1 hQ
    · rw [hfb1Q x false hfb1 hQ, (hPfb2 false y hP hfb2).symm]

lemma rend_false_ne_nil {s : Str} (h : rend s = false) : s ≠ [] := by
  intro he
  subst he
  simp [rend_nil] at h

lemma cnext_some {a t : Str} (h : cnext a = some t) : ∃ c, a = c :: t ∧ ascii c = true := by
  cases a with
  | nil => simp [cnext] at h
  | cons c t' =>
    simp only [cnext] at h
    by_cases hc : ascii c = true
    · rw [if_pos hc] at h
      exact ⟨c, by rw [Option.some_inj.mp h], hc⟩
    · rw [if_neg hc] at h
      simp at h

/-! ## Branch lemmas for sub_chunk_intersect -/

lemma sci_B1 (n : Nat) {c1 c2 : Str} (h1 : cend c1 = true) (h2 : cend c2 = true) :
    sub_chunk_intersect (n + 1) c1 c2 = .ok true := by
  simp [sub_chunk_intersect, h1, h2]

lemma sci_B2 (n : Nat) (t1 : Str) {c2 : Str} (h2 : cend c2 = true) :
    sub_chunk_intersect (n + 1) ('*' :: t1) c2 = sub_chunk_intersect n t1 c2 := by
  simp [sub_chunk_intersect, h2, cend_star, cwild_star, cnext_star]

lemma sci_B3 (n : Nat) (t2 : Str) {c1 : Str} (h1 : cend c1 = true) :
    sub_chunk_intersect (n + 1) c1 ('*' :: t2) = sub_chunk_intersect n c1 t2 := by
  simp [sub_chunk_intersect, h1, cend_cwild h1, cend_star, cwild_star, cnext_star]

lemma sci_B4_end (n : Nat) (t1 : Str) {c2 : Str} (h2 : cend c2 = false)
    (ht1 : cend t1 = true) :
    sub_chunk_intersect (n + 1) ('*' :: t1) c2 = .ok true := by
  simp [sub_chunk_intersect, h2, ht1, cend_star, cwild_star, cnext_star]

lemma sci_B4_go (n : Nat) (t1 t2 : Str) {c2 : Str} (h2 : cend c2 = false)
    (ht1 : cend t1 = false) (hn2 : cnext c2 = some t2) :
    sub_chunk_intersect (n + 1) ('*' :: t1) c2 =
      orBack (sub_chunk_intersect n t1 c2) (sub_chunk_intersect n ('*' :: t1) t2) := by
  simp [sub_chunk_intersect, h2, ht1, hn2, cend_star, cwild_star, cnext_star]

lemma sci_B5_end (n : Nat) (t2 : Str) {c1 : Str} (h1e : cend c1 = false)
    (h1w : cwild c1 = false) (ht2 : cend t2 = true) :
    sub_chunk_intersect (n + 1) c1 ('*' :: t2) = .ok true := by
  simp [sub_chunk_intersect, h1e, h1w, ht2, cend_star, cwild_star, cnext_star]

lemma sci_B5_crash (n : Nat) (t2 : Str) {c1 : Str} (h1e : cend c1 = false)
    (h1w : cwild c1 = false) (ht2 : cend t2 = false) (hn1 : cnext c1 = none) :
    sub_chunk_intersect (n + 1) c1 ('*' :: t2) = .crash := by
  simp [sub_chunk_intersect, h1e, h1w, ht2, hn1, cend_star, cwild_star, cnext_star]

lemma sci_B5_go (n : Nat) (t1 t2 : Str) {c1 : Str} (h1e : cend c1 = false)
    (h1w : cwild c1 = false) (ht2 : cend t2 = false) (hn1 : cnext c1 = some t1) :
    sub_chunk_intersect (n + 1) c1 ('*' :: t2) =
      orBack (sub_chunk_intersect n t1 ('*' :: t2)) (sub_chunk_intersect n c1 t2) := by
  simp [sub_chunk_intersect, h1e, h1w, ht2, hn1, cend_star, cwild_star, cnext_star]

lemma sci_B6a (n : Nat) {c1 c2 : Str} (h1 : cend c1 = true) (h2e : cend c2 = false)
    (h2w : cwild c2 = false) :
    sub_chunk_intersect (n + 1) c1 c2 = .ok false := by
  simp [sub_chunk_intersect, h1, h2e, h2w, cend_cwild h1]

lemma sci_B6b (n : Nat) {c1 c2 : Str} (h1e : cend c1 = false) (h1w : cwild c1 = false)
    (h2 : cend c2 = true) :
    sub_chunk_intersect (n + 1) c1 c2 = .ok false := by
  simp [sub_chunk_intersect, h1e, h1w, h2, cend_cwild h2]

lemma sci_B7_crash (n : Nat) {c1 c2 : Str} (h1e : cend c1 = false) (h1w : cwild c1 = false)
    (h2e : cend c2 = false) (h2w : cwild c2 = false) (hq : cequal c1 c2 = none) :
    sub_chunk_intersect (n + 1) c1 c2 = .crash := by
  simp [sub_chunk_intersect, cequalRes, gate, h1e, h1w, h2e, h2w, hq]

lemma sci_B7_false (n : Nat) {c1 c2 : Str} (h1e : cend c1 = false) (h1w : cwild c1 = false)
    (h2e : cend c2 = false) (h2w : cwild c2 = false) (hq : cequal c1 c2 = some false) :
    sub_chunk_intersect (n + 1) c1 c2 = .ok false := by
  simp [sub_chunk_intersect, cequalRes, gate, h1e, h1w, h2e, h2w, hq]

lemma sci_B7_true (n : Nat) (t1 t2 : Str) {c1 c2 : Str} (h1e : cend c1 = false)
    (h1w : cwild c1 = false) (h2e : cend c2 = false) (h2w : cwild c2 = false)
    (hq : cequal c1 c2 = some true) (hn1 : cnext c1 = some t1) (hn2 : cnext c2 = some t2) :
    sub_chunk_intersect (n + 1) c1 c2 = sub_chunk_intersect n t1 t2 := by
  simp [sub_chunk_intersect, cequalRes, gate, h1e, h1w, h2e, h2w, hq, hn1, hn2]

/-! ## Branch lemmas for res_intersect -/

lemma ri_B1 (n : Nat) {c1 c2 : Str} (h1 : rend c1 = true) (h2 : rend c2 = true) :
    res_intersect (n + 1) c1 c2 = .ok true := by
  simp [res_intersect, h1, h2]

lemma ri_B2 (n : Nat) {c1 c2 : Str} (hw1 : wild c1 = true) (h2 : rend c2 = true) :
    res_intersect (n + 1) c1 c2 = res_intersect n (next c1) c2 := by
  simp [res_intersect, hw1, h2, wild_rend hw1]

lemma ri_B3 (n : Nat) {c1 c2 : Str} (h1 : rend c1 = true) (hw2 : wild c2 = true) :
    res_intersect (n + 1) c1 c2 = res_intersect n c1 (next c2) := by
  simp [res_intersect, h1, hw2, wild_rend hw2, rend_wild h1]

lemma ri_B4_end (n : Nat) {c1 c2 : Str} (hw1 : wild c1 = true) (h2 : rend c2 = false)
    (hn : rend (next c1) = true) :
    res_intersect (n + 1) c1 c2 = .ok true := by
  simp [res_intersect, hw1, h2, hn, wild_rend hw1]

lemma ri_B4_go (n : Nat) {c1 c2 : Str} (hw1 : wild c1 = true) (h2 : rend c2 = false)
    (hn : rend (next c1) = false) :
    res_intersect (n + 1) c1 c2 =
      orBack (res_intersect n (next c1) c2) (res_intersect n c1 (next c2)) := by
  simp [res_intersect, hw1, h2, hn, wild_rend hw1]

lemma ri_B5_end (n : Nat) {c1 c2 : Str} (h1e : rend c1 = false) (h1w : wild c1 = false)
    (hw2 : wild c2 = true) (hn : rend (next c2) = true) :
    res_intersect (n + 1) c1 c2 = .ok true := by
  simp [res_intersect, h1e, h1w, hw2, hn, wild_rend hw2]

lemma ri_B5_go (n : Nat) {c1 c2 : Str} (h1e : rend c1 = false) (h1w : wild c1 = false)
    (hw2 : wild c2 = true) (hn : rend (next c2) = false) :
    res_intersect (n + 1) c1 c2 =
      orBack (res_intersect n (next c1) c2) (res_intersect n c1 (next c2)) := by
  simp [res_intersect, h1e, h1w, hw2, hn, wild_rend hw2]

lemma ri_B6a (n : Nat) {c1 c2 : Str} (h1 : rend c1 = true) (h2e : rend c2 = false)
    (h2w : wild c2 = false) :
    res_intersect (n + 1) c1 c2 = .ok false := by
  simp [res_intersect, h1, h2e, h2w, rend_wild h1]

lemma ri_B6b (n : Nat) {c1 c2 : Str} (h1e : rend c1 = false) (h1w : wild c1 = false)
    (h2 : rend c2 = true) :
    res_intersect (n + 1) c1 c2 = .ok false := by
  simp [res_intersect, h1e, h1w, h2, rend_wild h2]

lemma ri_B7 (n : Nat) {c1 c2 : Str} (h1e : rend c1 = false) (h1w : wild c1 = false)
    (h2e : rend c2 = false) (h2w : wild c2 = false) :
    res_intersect (n + 1) c1 c2 =
      gate (chunk_intersect (c1.length + c2.length + 1) c1 c2)
        (res_intersect n (next c1) (next c2)) := by
  simp [res_intersect, h1e, h1w, h2e, h2w]


/-! ## Symmetry of the chunk-level intersect -/

/-- A chunk-level `*` whose tail is ended absorbs any right-hand side: the
source returns true from the `end(next(c2))` check or the analogous branches. -/
lemma sci_star_right : ∀ n, ∀ b t : Str, cend t = true → b.length + (t.length + 1) < n →
    sub_chunk_intersect n b ('*' :: t) = .ok true := by
  intro n
  induction n with
  | zero =>
    intro b t _ hm
    exact absurd hm (by omega)
  | succ m ih =>
    intro b t hct hm
    rcases bool_false_or_true (cend b) with hcb | hcb
    · rcases bool_false_or_true (cwild b) with hwb | hwb
      · exact sci_B5_end m t hcb hwb hct
      · obtain ⟨tb, rfl⟩ := cwild_eq hwb
        rcases bool_false_or_true (cend tb) with hctb | hctb
        · rw [sci_B4_go m tb t (cend_star t) hctb (cnext_star t)]
          rw [ih tb t hct (by simp only [List.length_cons] at hm ⊢; omega)]
          rfl
        · exact sci_B4_end m tb (cend_star t) hctb
    · rw [sci_B3 m t hcb]
      cases m with
      | zero => exact absurd hm (by omega)
      | succ k => exact sci_B1 k hcb hct

/-- Where both directions of the chunk-level intersect return a boolean, the
booleans agree. -/
lemma sci_sym : ∀ n, ∀ a b : Str, ∀ x y : Bool, a.length + b.length < n →
    sub_chunk_intersect n a b = .ok x → sub_chunk_intersect n b a = .ok y → x = y := by
  intro n
  induction n with
  | zero =>
    intro a b x y hm _ _
    exact absurd hm (by omega)
  | succ m ih =>
    intro a b x y hm h1 h2
    rcases bool_false_or_true (cend a) with hea | hea
    · rcases bool_false_or_true (cend b) with heb | heb
      · -- neither chunk is ended
        rcases bool_false_or_true (cwild a) with hwa | hwa
        · rcases bool_false_or_true (cwild b) with hwb | hwb
          · -- both literal: element comparison
            cases hq1 : cequal a b with
            | none =>
              rw [sci_B7_crash m hea hwa heb hwb hq1] at h1
              simp at h1
            | some p =>
              cases hq2 : cequal b a with
              | none =>
                rw [sci_B7_crash m heb hwb hea hwa hq2] at h2
                simp at h2
              | some q =>
                have hpq : p = q := cequal_sym hq1 hq2
                subst hpq
                cases p with
                | false =>
                  rw [sci_B7_false m hea hwa heb hwb hq1] at h1
                  rw [sci_B7_false m heb hwb hea hwa hq2] at h2
                  simp only [Res.ok.injEq] at h1 h2
                  rw [← h1, ← h2]
                | true =>
                  obtain ⟨c, ta, tb, rfl, rfl, hac⟩ := cequal_some_true hq1
                  rw [sci_B7_true m ta tb hea hwa heb hwb hq1
                    (cnext_cons_ascii ta hac) (cnext_cons_ascii tb hac)] at h1
                  rw [sci_B7_true m tb ta heb hwb hea hwa hq2
                    (cnext_cons_ascii tb hac) (cnext_cons_ascii ta hac)] at h2
                  exact ih ta tb x y (by simp only [List.length_cons] at hm; omega) h1 h2
          · -- only b is wildcarded
            obtain ⟨tb, rfl⟩ := cwild_eq hwb
            rcases bool_false_or_true (cend tb) with hetb | hetb
            · cases hna : cnext a with
              | none =>
                rw [sci_B5_crash m tb hea hwa hetb hna] at h1
                simp at h1
              | some ta' =>
                obtain ⟨c0, ha0, hc0⟩ := cnext_some hna
                rw [sci_B5_go m ta' tb hea hwa hetb hna] at h1
                rw [sci_B4_go m tb ta' hea hetb hna] at h2
                have hla : a.length = ta'.length + 1 := by rw [ha0]; simp
                refine orBack_sym h1 h2 ?_ ?_
                · intro u v hu hv
                  exact ih ta' ('*' :: tb) u v
                    (by simp only [List.length_cons] at hm ⊢; omega) hu hv
                · intro u v hu hv
                  exact ih a tb u v (by simp only [List.length_cons] at hm; omega) hu hv
            · rw [sci_B5_end m tb hea hwa hetb] at h1
              rw [sci_B4_end m tb hea hetb] at h2
              simp only [Res.ok.injEq] at h1 h2
              rw [← h1, ← h2]
        · obtain ⟨ta, rfl⟩ := cwild_eq hwa
          rcases bool_false_or_true (cwild b) with hwb | hwb
          · -- only a is wildcarded
            rcases bool_false_or_true (cend ta) with heta | heta
            · cases hnb : cnext b with
              | none =>
                rw [sci_B5_crash m ta heb hwb heta hnb] at h2
                simp at h2
              | some tb' =>
                obtain ⟨c0, hb0, hc0⟩ := cnext_some hnb
                rw [sci_B4_go m ta tb' heb heta hnb] at h1
                rw [sci_B5_go m tb' ta heb hwb heta hnb] at h2
                have hlb : b.length = tb'.length + 1 := by rw [hb0]; simp
                refine orBack_sym h1 h2 ?_ ?_
                · intro u v hu hv
                  exact ih ta b u v (by simp only [List.length_cons] at hm; omega) hu hv
                · intro u v hu hv
                  exact ih ('*' :: ta) tb' u v
                    (by simp only [List.length_cons] at hm ⊢; omega) hu hv
            · rw [sci_B4_end m ta heb heta] at h1
              rw [sci_B5_end m ta heb hwb heta] at h2
              simp only [Res.ok.injEq] at h1 h2
              rw [← h1, ← h2]
          · -- both wildcarded
            obtain ⟨tb, rfl⟩ := cwild_eq hwb
            rcases bool_false_or_true (cend ta) with heta | heta
            · rcases bool_false_or_true (cend tb) with hetb | hetb
              · rw [sci_B4_go m ta tb (cend_star tb) heta (cnext_star tb)] at h1
                rw [sci_B4_go m tb ta (cend_star ta) hetb (cnext_star ta)] at h2
                refine orBack_sym h1 h2 ?_ ?_
                · intro u v hu hv
                  exact ih ta ('*' :: tb) u v
                    (by simp only [List.length_cons] at hm ⊢; omega) hu hv
                · intro u v hu hv
                  exact ih ('*' :: ta) tb u v
                    (by simp only [List.length_cons] at hm ⊢; omega) hu hv
              · have hs := sci_star_right (m + 1) ('*' :: ta) tb hetb
                  (by simp only [List.length_cons] at hm ⊢; omega)
                rw [hs] at h1
                rw [sci_B4_end m tb (cend_star ta) hetb] at h2
                simp only [Res.ok.injEq] at h1 h2
                rw [← h1, ← h2]
            · have hs := sci_star_right (m + 1) ('*' :: tb) ta heta
                (by simp only [List.length_cons] at hm ⊢; omega)
              rw [hs] at h2
              rw [sci_B4_end m ta (cend_star tb) heta] at h1
              simp only [Res.ok.injEq] at h1 h2
              rw [← h1, ← h2]
      · -- a not ended, b ended
        rcases bool_false_or_true (cwild a) with hwa | hwa
        · rw [sci_B6b m hea hwa heb] at h1
          rw [sci_B6a m heb hea hwa] at h2
          simp only [Res.ok.injEq] at h1 h2
          rw [← h1, ← h2]
        · obtain ⟨ta, rfl⟩ := cwild_eq hwa
          rw [sci_B2 m ta heb] at h1
          rw [sci_B3 m ta heb] at h2
          exact ih ta b x y (by simp only [List.length_cons] at hm; omega) h1 h2
    · rcases bool_false_or_true (cend b) with heb | heb
      · -- a ended, b not ended
        rcases bool_false_or_true (cwild b) with hwb | hwb
        · rw [sci_B6a m hea heb hwb] at h1
          rw [sci_B6b m heb hwb hea] at h2
          simp only [Res.ok.injEq] at h1 h2
          rw [← h1, ← h2]
        · obtain ⟨tb, rfl⟩ := cwild_eq hwb
          rw [sci_B3 m tb hea] at h1
          rw [sci_B2 m tb hea] at h2
          exact ih a tb x y (by simp only [List.length_cons] at hm; omega) h1 h2
      · -- both ended
        rw [sci_B1 m hea heb] at h1
        rw [sci_B1 m heb hea] at h2
        simp only [Res.ok.injEq] at h1 h2
        rw [← h1, ← h2]

/-- Where both directions of chunk_intersect return a boolean, the booleans
agree: the (ended, non-ended) pre-check is symmetric and the rest delegates. -/
lemma chunk_sym (n : Nat) (a b : Str) (x y : Bool) (hm : a.length + b.length < n)
    (h1 : chunk_intersect n a b = .ok x) (h2 : chunk_intersect n b a = .ok y) : x = y := by
  unfold chunk_intersect at h1 h2
  rcases bool_false_or_true (cend a) with hea | hea <;>
    rcases bool_false_or_true (cend b) with heb | heb
  · simp only [hea, heb] at h1 h2
    simp at h1 h2
    exact sci_sym n a b x y hm h1 h2
  · simp [hea, heb] at h1 h2
    rw [h1, h2]
  · simp [hea, heb] at h1 h2
    rw [h1, h2]
  · simp only [hea, heb] at h1 h2
    simp at h1 h2
    exact sci_sym n a b x y hm h1 h2


/-! ## Symmetry of the resource-level intersect -/

/-- A resource-level wildcard whose remainder is empty ("**" or "**/") absorbs
any left-hand side. -/
lemma ri_star_right : ∀ n, ∀ b a : Str, wild a = true → rend (next a) = true →
    b.length + a.length < n → res_intersect n b a = .ok true := by
  intro n
  induction n with
  | zero =>
    intro b a _ _ hm
    exact absurd hm (by omega)
  | succ m ih =>
    intro b a hwa hna hm
    rcases bool_false_or_true (rend b) with heb | heb
    · rcases bool_false_or_true (wild b) with hwb | hwb
      · exact ri_B5_end m heb hwb hwa hna
      · rcases bool_false_or_true (rend (next b)) with hnb | hnb
        · rw [ri_B4_go m hwb (wild_rend hwa) hnb]
          rw [ih (next b) a hwa hna
            (by have := next_length (wild_ne_nil hwb); omega)]
          rfl
        · exact ri_B4_end m hwb (wild_rend hwa) hnb
    · rw [ri_B3 m heb hwa, rend_eq_nil heb, rend_eq_nil hna]
      cases m with
      | zero =>
        exact absurd hm
          (by have := List.length_pos.mpr (wild_ne_nil hwa); omega)
      | succ k => exact ri_B1 k rfl rfl

/-- Where both directions of the resource-level intersect return a boolean,
the booleans agree. -/
lemma ri_sym : ∀ n, ∀ a b : Str, ∀ x y : Bool, a.length + b.length < n →
    res_intersect n a b = .ok x → res_intersect n b a = .ok y → x = y := by
  intro n
  induction n with
  | zero =>
    intro a b x y hm _ _
    exact absurd hm (by omega)
  | succ m ih =>
    intro a b x y hm h1 h2
    rcases bool_false_or_true (rend a) with hea | hea
    · rcases bool_false_or_true (rend b) with heb | heb
      · -- neither side is ended
        rcases bool_false_or_true (wild a) with hwa | hwa
        · rcases bool_false_or_true (wild b) with hwb | hwb
          · -- neither side is wildcarded: chunk gate
            rw [ri_B7 m hea hwa heb hwb] at h1
            rw [ri_B7 m heb hwb hea hwa] at h2
            have hf : b.length + a.length + 1 = a.length + b.length + 1 := by omega
            rw [hf] at h2
            rcases gate_ok h1 with ⟨hc1, hk1⟩ | ⟨hc1, rfl⟩
            · rcases gate_ok h2 with ⟨hc2, hk2⟩ | ⟨hc2, rfl⟩
              · refine ih (next a) (next b) x y ?_ hk1 hk2
                have l1 := next_length (rend_false_ne_nil hea)
                have l2 := next_length (rend_false_ne_nil heb)
                omega
              · exact absurd (chunk_sym _ a b true false (by omega) hc1 hc2) (by simp)
            · rcases gate_ok h2 with ⟨hc2, hk2⟩ | ⟨hc2, rfl⟩
              · exact absurd (chunk_sym _ a b false true (by omega) hc1 hc2) (by simp)
              · rfl
          · -- only b is wildcarded
            rcases bool_false_or_true (rend (next b)) with hnb | hnb
            · rw [ri_B5_go m hea hwa hwb hnb] at h1
              rw [ri_B4_go m hwb hea hnb] at h2
              have l1 := next_length (rend_false_ne_nil hea)
              have l2 := next_length (rend_false_ne_nil heb)
              refine orBack_sym h1 h2 ?_ ?_
              · intro u v hu hv
                exact ih (next a) b u v (by omega) hu hv
              · intro u v hu hv
                exact ih a (next b) u v (by omega) hu hv
            · rw [ri_B5_end m hea hwa hwb hnb] at h1
              rw [ri_B4_end m hwb hea hnb] at h2
              simp only [Res.ok.injEq] at h1 h2
              rw [← h1, ← h2]
        · rcases bool_false_or_true (wild b) with hwb | hwb
          · -- only a is wildcarded
            rcases bool_false_or_true (rend (next a)) with hna | hna
            · rw [ri_B4_go m hwa heb hna] at h1
              rw [ri_B5_go m heb hwb hwa hna] at h2
              have l1 := next_length (rend_false_ne_nil hea)
              have l2 := next_length (rend_false_ne_nil heb)
              refine orBack_sym h1 h2 ?_ ?_
              · intro u v hu hv
                exact ih (next a) b u v (by omega) hu hv
              · intro u v hu hv
                exact ih a (next b) u v (by omega) hu hv
            · rw [ri_B4_end m hwa heb hna] at h1
              rw [ri_B5_end m heb hwb hwa hna] at h2
              simp only [Res.ok.injEq] at h1 h2
              rw [← h1, ← h2]
          · -- both sides are wildcarded
            rcases bool_false_or_true (rend (next a)) with hna | hna
            · rcases bool_false_or_true (rend (next b)) with hnb | hnb
              · rw [ri_B4_go m hwa heb hna] at h1
                rw [ri_B4_go m hwb hea hnb] at h2
                have l1 := next_length (rend_false_ne_nil hea)
                have l2 := next_length (rend_false_ne_nil heb)
                refine orBack_sym h1 h2 ?_ ?_
                · intro u v hu hv
                  exact ih (next a) b u v (by omega) hu hv
                · intro u v hu hv
                  exact ih a (next b) u v (by omega) hu hv
              · have hs := ri_star_right (m + 1) a b hwb hnb (by omega)
                rw [hs] at h1
                rw [ri_B4_end m hwb hea hnb] at h2
                simp only [Res.ok.injEq] at h1 h2
                rw [← h1, ← h2]
            · have hs := ri_star_right (m + 1) b a hwa hna (by omega)
              rw [hs] at h2
              rw [ri_B4_end m hwa heb hna] at h1
              simp only [Res.ok.injEq] at h1 h2
              rw [← h1, ← h2]
      · -- a not ended, b ended
        rcases bool_false_or_true (wild a) with hwa | hwa
        · rw [ri_B6b m hea hwa heb] at h1
          rw [ri_B6a m heb hea hwa] at h2
          simp only [Res.ok.injEq] at h1 h2
          rw [← h1, ← h2]
        · rw [ri_B2 m hwa heb] at h1
          rw [ri_B3 m heb hwa] at h2
          exact ih (next a) b x y
            (by have := next_length (rend_false_ne_nil hea); omega) h1 h2
    · rcases bool_false_or_true (rend b) with heb | heb
      · -- a ended, b not ended
        rcases bool_false_or_true (wild b) with hwb | hwb
        · rw [ri_B6a m hea heb hwb] at h1
          rw [ri_B6b m heb hwb hea] at h2
          simp only [Res.ok.injEq] at h1 h2
          rw [← h1, ← h2]
        · rw [ri_B3 m hea hwb] at h1
          rw [ri_B2 m hwb hea] at h2
          exact ih a (next b) x y
            (by have := next_length (rend_false_ne_nil heb); omega) h1 h2
      · -- both ended
        rw [ri_B1 m hea heb] at h1
        rw [ri_B1 m heb hea] at h2
        simp only [Res.ok.injEq] at h1 h2
        rw [← h1, ← h2]

/-! ## What the empty string intersects -/

lemma allStarChunks_nil : allStarChunks [] = true := by
  rw [allStarChunks]
  simp

lemma allStarChunks_ne {e : Str} (he : e ≠ []) :
    allStarChunks e = (wild e && allStarChunks (next e)) := by
  conv_lhs => rw [allStarChunks]
  rw [dif_neg he]

lemma ri_nil_left : ∀ n, ∀ e : Str, e.length < n →
    res_intersect n [] e = .ok (allStarChunks e) := by
  intro n
  induction n with
  | zero =>
    intro e hm
    exact absurd hm (by omega)
  | succ m ih =>
    intro e hm
    by_cases he : e = []
    · subst he
      rw [ri_B1 m rend_nil rend_nil, allStarChunks_nil]
    · have hee : rend e = false := by
        cases e with
        | nil => exact absurd rfl he
        | cons c t => exact rend_cons c t
      rcases bool_false_or_true (wild e) with hw | hw
      · rw [ri_B6a m rend_nil hee hw, allStarChunks_ne he, hw]
        rw [Bool.false_and]
      · rw [ri_B3 m rend_nil hw]
        rw [ih (next e) (by have := next_length he; omega)]
        rw [allStarChunks_ne he, hw, Bool.true_and]


/-! ## Claims C1 through C6 -/

/-- Claim C1: the claim states that `intersect` and `include` return a bool
without panicking on every pair of UTF-8 strings, in particular on inputs with
multi-byte characters.  The code in fact panics there: on the single-character
string "é" both predicates reach `cequal`, whose slice `&s2[0..1]` falls
inside the two-byte encoding of 'é'.  This theorem evaluates the code at that
failing input. -/
theorem intersect_include_multibyte_crash :
    intersect ['é'] ['é'] = .crash ∧ include' ['é'] ['é'] = .crash := by
  decide

/-- Claim C2, counterexample: the claim states that the empty string intersects
only the empty string, but the source returns true for `intersect("", "**")`
(resource-level branch `end(c1) && wild(c2)` recurses past the `**` chunk and
then both sides are ended), and "**" is not the empty string. -/
theorem intersect_empty_cex :
    intersect [] ['*', '*'] = .ok true ∧ (['*', '*'] : Str) ≠ [] := by
  decide

/-- Claim C2, amended: the empty string intersects exactly the expressions
every one of whose `/`-separated chunks is `**` — the empty string itself,
"**", "**/", "**/**" and so on; `intersect("", e)` is false for every other
`e`. -/
theorem intersect_empty_characterization (e : Str) :
    intersect [] e = .ok (allStarChunks e) :=
  ri_nil_left (([] : Str).length + e.length + 1) e
    (by simp only [List.length_nil]; omega)

/-- Claim C4: intersection is symmetric wherever both directions are defined:
whenever `intersect a b` and `intersect b a` both return a boolean (neither
panics), the booleans are equal. -/
theorem intersect_symm (a b : Str) (x y : Bool)
    (hab : intersect a b = .ok x) (hba : intersect b a = .ok y) : x = y := by
  unfold intersect at hab hba
  have hf : b.length + a.length + 1 = a.length + b.length + 1 := by omega
  rw [hf] at hba
  exact ri_sym (a.length + b.length + 1) a b x y (by omega) hab hba

/-- Witness for C4 at a concrete input where both directions are defined. -/
theorem intersect_symm_witness :
    intersect "/a/b".data "/a/*".data = .ok true ∧ true = true :=
  ⟨by decide,
    intersect_symm "/a/b".data "/a/*".data true true (by decide) (by decide)⟩

/-- Claim C3: `matches` equals `intersect` when both or neither argument
begins with the admin prefix "/@/", and is false when exactly one does,
regardless of what `intersect` would return. -/
theorem matches_admin_isolation (a b : Str) :
    (starts_admin a = starts_admin b → matches' a b = intersect a b) ∧
    (starts_admin a ≠ starts_admin b → matches' a b = .ok false) := by
  constructor
  · intro h
    simp [matches', h]
  · intro h
    simp [matches', beq_eq_false_iff_ne.mpr h]

/-- Witness for C3 at a concrete input on which the two sides disagree about
the admin prefix while their intersection would be true. -/
theorem matches_admin_isolation_witness :
    matches' "/@/x".data "**".data = .ok false ∧
      intersect "/@/x".data "**".data = .ok true :=
  ⟨(matches_admin_isolation "/@/x".data "**".data).2 (by decide), by decide⟩

/-- Claim C5: in `include(sup, sub)` a wildcard on the sub side at a position
where sup is not wildcarded makes the result false, at the resource level and
at the chunk level; in particular `include("/a/**", "/a/b/c/d")` is true while
`include("/a/b/c/d", "/a/**")` is false. -/
theorem include_sub_wildcard (sup sub c1 c2 : Str) (n : Nat) :
    (0 < n → wild sup = false → wild sub = true →
      res_include n sup sub = .ok false) ∧
    (0 < n → cwild c1 = false → cwild c2 = true →
      chunk_include n c1 c2 = .ok false) ∧
    include' "/a/**".data "/a/b/c/d".data = .ok true ∧
    include' "/a/b/c/d".data "/a/**".data = .ok false := by
  refine ⟨fun hn h1 h2 => ?_, fun hn h1 h2 => ?_, by decide, by decide⟩
  · cases n with
    | zero => omega
    | succ m => simp [res_include, h1, h2, wild_rend h2]
  · cases n with
    | zero => omega
    | succ m => simp [chunk_include, h1, h2, cwild_cend h2]

/-- Witness for C5: a literal super side cannot include a `**` sub side. -/
theorem include_sub_wildcard_witness :
    res_include 1 ['a'] ['*', '*'] = .ok false :=
  (include_sub_wildcard ['a'] ['*', '*'] [] [] 1).1 (by decide) (by decide)
    (by decide)

lemma res_include_dstar (n : Nat) (e : Str) (hn : 1 < n) :
    res_include n ['*', '*'] e = .ok true := by
  cases n with
  | zero => omega
  | succ m =>
    cases e with
    | nil =>
      cases m with
      | zero => omega
      | succ k =>
        show res_include (k + 1 + 1) ['*', '*'] [] = .ok true
        simp [res_include, wild_sstar, next_sstar, rend_nil, rend_cons]
    | cons c t =>
      simp [res_include, wild_sstar, next_sstar, rend_nil, rend_cons]

lemma res_intersect_dstar_left (n : Nat) (e : Str) (hn : 1 < n) :
    res_intersect n ['*', '*'] e = .ok true := by
  cases n with
  | zero => omega
  | succ m =>
    cases e with
    | nil =>
      cases m with
      | zero => omega
      | succ k =>
        show res_intersect (k + 1 + 1) ['*', '*'] [] = .ok true
        simp [res_intersect, wild_sstar, next_sstar, rend_nil, rend_cons]
    | cons c t =>
      simp [res_intersect, wild_sstar, next_sstar, rend_nil, rend_cons]

/-- Claim C6: "**" is a top element: it includes every expression and it
intersects every expression. -/
theorem doublestar_top (e : Str) :
    include' ['*', '*'] e = .ok true ∧ intersect ['*', '*'] e = .ok true := by
  have hl : (['*', '*'] : Str).length = 2 := rfl
  constructor
  · exact res_include_dstar _ e (by omega)
  · exact res_intersect_dstar_left _ e (by omega)

/-! ## Claims C7, C8, C9, C10 -/

/-- Claim C7: when the peer already has a transport, `init_transport_unicast`
returns the existing handle and leaves the map unchanged if the four
fundamental parameters match, and otherwise returns the distinct error for the
first mismatching field (in source order), naming the field, the got value and
the expected value, again leaving the map unchanged. -/
theorem init_transport_existing (max_sessions : Nat) (ts : Transports)
    (c : TransportConfigUnicast) (t : TransportUnicastInner)
    (h : List.lookup c.peer ts = some t) :
    (t.whatami = c.whatami → t.sn_resolution = c.sn_resolution →
      t.is_shm = c.is_shm → t.is_qos = c.is_qos →
      init_transport_unicast max_sessions ts c = (.ok t, ts)) ∧
    (t.whatami ≠ c.whatami →
      init_transport_unicast max_sessions ts c =
        (.error (.invalidWhatami c.peer c.whatami t.whatami), ts)) ∧
    (t.whatami = c.whatami → t.sn_resolution ≠ c.sn_resolution →
      init_transport_unicast max_sessions ts c =
        (.error (.invalidSnResolution c.peer c.sn_resolution t.sn_resolution),
          ts)) ∧
    (t.whatami = c.whatami → t.sn_resolution = c.sn_resolution →
      t.is_shm ≠ c.is_shm →
      init_transport_unicast max_sessions ts c =
        (.error (.invalidShm c.peer c.is_shm t.is_shm), ts)) ∧
    (t.whatami = c.whatami → t.sn_resolution = c.sn_resolution →
      t.is_shm = c.is_shm → t.is_qos ≠ c.is_qos →
      init_transport_unicast max_sessions ts c =
        (.error (.invalidQos c.peer c.is_qos t.is_qos), ts)) := by
  refine ⟨?_, ?_, ?_, ?_, ?_⟩
  · intro h1 h2 h3 h4
    simp [init_transport_unicast, h, h1, h2, h3, h4]
  · intro h1
    simp [init_transport_unicast, h, h1]
  · intro h1 h2
    simp [init_transport_unicast, h, h1, h2]
  · intro h1 h2 h3
    simp [init_transport_unicast, h, h1, h2, h3]
  · intro h1 h2 h3 h4
    simp [init_transport_unicast, h, h1, h2, h3, h4]

/-- Witness for C7: a re-establishment for peer 7 whose fundamentals match but
whose initial sequence number differs returns the stored transport and leaves
the map unchanged. -/
theorem init_transport_existing_witness :
    init_transport_unicast 10
      [(7, (⟨7, .router, 16, 3, false, true⟩ : TransportUnicastInner))]
      (⟨7, .router, 16, 99, false, true⟩ : TransportConfigUnicast) =
      (.ok (⟨7, .router, 16, 3, false, true⟩ : TransportUnicastInner),
        [(7, (⟨7, .router, 16, 3, false, true⟩ : TransportUnicastInner))]) :=
  (init_transport_existing 10
      [(7, (⟨7, .router, 16, 3, false, true⟩ : TransportUnicastInner))]
      (⟨7, .router, 16, 99, false, true⟩ : TransportConfigUnicast)
      (⟨7, .router, 16, 3, false, true⟩ : TransportUnicastInner)
      (by decide)).1 rfl rfl rfl rfl

/-- Claim C8: a new peer is rejected with the max-transports error, the map
unchanged, once the map holds max_sessions entries, and a successful call
never leaves the map above max_sessions entries when it was within the bound
before the call. -/
theorem init_transport_max_sessions (max_sessions : Nat) (ts : Transports)
    (c : TransportConfigUnicast) :
    (List.lookup c.peer ts = none → max_sessions ≤ ts.length →
      init_transport_unicast max_sessions ts c =
        (.error (.maxSessionsReached max_sessions c.peer), ts)) ∧
    (ts.length ≤ max_sessions →
      ∀ t ts', init_transport_unicast max_sessions ts c = (.ok t, ts') →
        ts'.length ≤ max_sessions) := by
  constructor
  · intro hl hm
    simp [init_transport_unicast, hl, hm]
  · intro hle t ts' h
    cases hl : List.lookup c.peer ts with
    | some tr =>
      by_cases h1 : tr.whatami = c.whatami
      · by_cases h2 : tr.sn_resolution = c.sn_resolution
        · by_cases h3 : tr.is_shm = c.is_shm
          · by_cases h4 : tr.is_qos = c.is_qos
            · simp only [init_transport_unicast, hl] at h
              rw [if_neg (by simp [h1]), if_neg (by simp [h2]),
                if_neg (by simp [h3]), if_neg (by simp [h4])] at h
              simp only [Prod.mk.injEq] at h
              rw [← h.2]
              exact hle
            · simp [init_transport_unicast, hl, h1, h2, h3, h4] at h
          · simp [init_transport_unicast, hl, h1, h2, h3] at h
        · simp [init_transport_unicast, hl, h1, h2] at h
      · simp [init_transport_unicast, hl, h1] at h
    | none =>
      by_cases hcap : ts.length ≥ max_sessions
      · simp [init_transport_unicast, hl, hcap] at h
      · simp only [init_transport_unicast, hl] at h
        rw [if_neg hcap] at h
        simp only [Prod.mk.injEq] at h
        rw [← h.2]
        simp only [List.length_cons]
        omega

/-- Witness for C8 at a concrete input: with max_sessions = 0 and an empty
map, a new peer is rejected and the map stays empty. -/
theorem init_transport_max_sessions_witness :
    init_transport_unicast 0 []
      (⟨2, .client, 8, 0, false, false⟩ : TransportConfigUnicast) =
      (.error (.maxSessionsReached 0 2), []) :=
  (init_transport_max_sessions 0 []
      (⟨2, .client, 8, 0, false, false⟩ : TransportConfigUnicast)).1
    (by decide) (by decide)

/-- Claim C9: when the counter read under its lock is at least accept_pending
the link is dropped with the counter unchanged (and the operation has no error
channel at all); otherwise the counter is incremented before the accept task
is spawned; the admission bound `incoming ≤ accept_pending` is preserved; and
the spawned task decrements the counter exactly once on success, establishment
error and timeout alike, closing the link in the two failure cases. -/
theorem handle_new_link_admission (accept_pending incoming : Nat) :
    (accept_pending ≤ incoming →
      handle_new_link_unicast accept_pending incoming = (false, incoming)) ∧
    (incoming < accept_pending →
      handle_new_link_unicast accept_pending incoming = (true, incoming + 1)) ∧
    (incoming ≤ accept_pending →
      (handle_new_link_unicast accept_pending incoming).2 ≤ accept_pending) ∧
    (∀ o, (accept_task incoming o).2 = incoming - 1) ∧
    (∀ o, o ≠ AcceptOutcome.established → (accept_task incoming o).1 = true) := by
  refine ⟨fun h => ?_, fun h => ?_, fun h => ?_, fun o => ?_, fun o ho => ?_⟩
  · simp [handle_new_link_unicast, h]
  · rw [handle_new_link_unicast, if_neg (by omega)]
  · by_cases hc : incoming ≥ accept_pending
    · simpa [handle_new_link_unicast, hc] using h
    · rw [handle_new_link_unicast, if_neg hc]
      omega
  · cases o <;> rfl
  · cases o with
    | established => exact absurd rfl ho
    | establishFailed => rfl
    | timedOut => rfl

/-- Witness for C9: with the counter already at the bound, the link is dropped
and the counter is unchanged. -/
theorem handle_new_link_admission_witness :
    handle_new_link_unicast 4 4 = (false, 4) :=
  (handle_new_link_admission 4 4).1 (by decide)

/-- Claim C10, counterexample: the claim states that after `close_unicast` the
incoming counter is zero, but the source never touches that counter; from a
state with one pending accept (incoming = 1) the counter is still 1 after the
close. -/
theorem close_unicast_incoming_cex :
    (close_unicast ⟨1, [], []⟩).1.incoming = 1 ∧ (1 : Nat) ≠ 0 := by
  decide

/-- Claim C10, amended: after `close_unicast` the protocols map and the
transports map are empty and every drained transport was closed with reason
GENERIC, while the incoming counter keeps its prior value. -/
theorem close_unicast_spec (s : ManagerState) :
    (close_unicast s).1.protocols = [] ∧
    (close_unicast s).1.transports = [] ∧
    (close_unicast s).1.incoming = s.incoming ∧
    (close_unicast s).2.closedTransports =
      s.transports.map (fun kv => (kv.1, CloseReason.generic)) :=
  ⟨rfl, rfl, rfl, rfl⟩

end Zenoh
